import Mathlib

/-!
Shallow embedding of the relational operand layer of the repository
(datajoint/relational_operand.py).  Relation nodes form an operator tree
built by restriction, projection, join and subquery encapsulation; the
tree is compiled on demand into SQL text.  Machine-facing collaborators
(connection, heading metadata object, blob codec) are external to the
embedded file and are modelled as data or as function parameters.
-/

namespace DJ

/-- Python values that appear in restriction mappings.  Only their two
textual renderings matter to the compiled SQL: the text produced by the
builtin repr (used for dict restrictions, line 281 of the source) and the
text produced by str via percent-s formatting (used for record
restrictions, line 283). -/
structure Value where
  reprS : String
  strS : String
deriving DecidableEq

/-- Heading is an external collaborator (heading.py is not under src/).
The source consumes these members of it: names in order, primary key,
blob attribute names, the SELECT list text as_sql, and the computed
flag. -/
structure Heading where
  names : List String
  primaryKey : List String
  blobs : List String
  asSql : String
  computed : Bool
deriving DecidableEq

/-- Python string join: sep.join(parts). -/
def sepJoin (sep : String) : List String → String
  | [] => ""
  | [x] => x
  | x :: y :: rest => x ++ sep ++ sepJoin sep (y :: rest)

/-- Membership test by attribute name, used by where-clause compilation
as the Python test k in self.heading.  Modelled from the spec: membership
test by attribute name (heading.py is not under src/). -/
def Heading.mem (h : Heading) (k : String) : Bool :=
  h.names.contains k

/-- Modelled from the spec: Heading.set_primary_key overrides the primary
key of a heading (heading.py is not under src/). -/
def Heading.setPrimaryKey (h : Heading) (pk : List String) : Heading :=
  { h with primaryKey := pk }

/-- Modelled from the spec: Heading.resolve flattens renamed or aggregated
expressions into concrete output columns, after which the heading is never
computed (spec section 4.4; heading.py is not under src/). -/
def Heading.resolve (h : Heading) : Heading :=
  { h with
    computed := false
    asSql := sepJoin "," (h.names.map (fun n => "`" ++ n ++ "`")) }

/-- Modelled from the spec: Heading.project keeps every primary key
attribute, keeps the requested attributes (all of them when the star
string is requested), and adds the renamed attributes; the computed flag
is true when attributes are renamed or are aggregate expressions (spec
sections 3 and 4.3; heading.py is not under src/). -/
def Heading.project (h : Heading) (attrs : List String)
    (renamed : List (String × String)) : Heading :=
  let kept := h.names.filter fun n =>
    h.primaryKey.contains n || attrs.contains n || attrs.contains "*"
  let outNames := kept ++ renamed.map Prod.fst
  { names := outNames
    primaryKey := h.primaryKey
    blobs := h.blobs.filter fun n => outNames.contains n
    asSql := sepJoin ","
      (kept.map (fun n => "`" ++ n ++ "`") ++
        renamed.map (fun p => "(" ++ p.2 ++ ") as `" ++ p.1 ++ "`"))
    computed := !renamed.isEmpty }

/-- Modelled from the spec: Heading.join merges the two attribute lists of
a natural join, attributes of the left operand first (spec section 4.2;
heading.py is not under src/). -/
def Heading.join (h1 h2 : Heading) (_left : Bool) : Heading :=
  let outNames := h1.names ++ h2.names.filter fun n => !h1.names.contains n
  { names := outNames
    primaryKey := h1.primaryKey ++ h2.primaryKey.filter fun n => !h1.primaryKey.contains n
    blobs := h1.blobs ++ h2.blobs.filter fun n => !h1.blobs.contains n
    asSql := sepJoin "," (outNames.map (fun n => "`" ++ n ++ "`"))
    computed := h1.computed || h2.computed }

/-- Domain errors of the embedded layer.  DataJointError carries its
message; a failed Python assert statement is a distinct outcome. -/
inductive DJError where
  | msg : String → DJError
  | assertionFailed : DJError
  | keyError : String → DJError
deriving DecidableEq

mutual

/-- Operator tree of relation nodes.  Every node carries the mutable
field underscore-restrictions of its Python object as an explicit list
(the Python value None and the empty list are both rendered as the empty
list, as done by the restrictions property on lines 27 to 29).  A base
node stands for a leaf relation: it records the connection handle (a
number, compared by equality), its FROM clause text and its heading. -/
inductive Node where
  | base : (conn : Nat) → (fromSql : String) → (hd : Heading) →
      (restrictions : List Restriction) → Node
  | join : (arg1 arg2 : Node) → (left : Bool) →
      (restrictions : List Restriction) → Node
  | proj : (arg : Node) → (attributes : List String) →
      (renamed : List (String × String)) →
      (restrictions : List Restriction) → Node
  | subquery : (arg : Node) → (restrictions : List Restriction) → Node

/-- Restriction values, the tagged union the where-clause compiler
classifies on lines 279 to 305: a dict (attribute to value mapping), an
numpy void record, a numpy record array, a Python list, a nested relation
node, and the Not marker wrapping a restriction. -/
inductive Restriction where
  | dict : List (String × Value) → Restriction
  | record : List (String × Value) → Restriction
  | ndarr : List (List (String × Value)) → Restriction
  | pylist : List Restriction → Restriction
  | rel : Node → Restriction
  | neg : Restriction → Restriction

end

/-- Python argument positions that accept any object: either a relation
node or some non relational value, used for the isinstance checks of
Join and aggregate. -/
inductive PyObj where
  | rel : Node → PyObj
  | other : PyObj

/-- Restrictions list of a node, the restrictions property of the
source (lines 27 to 29). -/
def Node.restrictions : Node → List Restriction
  | .base _ _ _ rs => rs
  | .join _ _ _ rs => rs
  | .proj _ _ _ rs => rs
  | .subquery _ rs => rs

/-- Replace the restriction list of a node, keeping every other field. -/
def Node.withRestrictions : Node → List Restriction → Node
  | .base cn f h _, rs => .base cn f h rs
  | .join a b l _, rs => .join a b l rs
  | .proj a ats rn _, rs => .proj a ats rn rs
  | .subquery a _, rs => .subquery a rs

/-- Connection of a node: a base node stores it, every operator node
reports the connection of its (first) argument (source lines 372 to 374,
416 to 418 and 448 to 450). -/
def Node.connection : Node → Nat
  | .base cn _ _ _ => cn
  | .join a _ _ _ => a.connection
  | .proj a _ _ _ => a.connection
  | .subquery a _ => a.connection

/-- Heading of a node: a base node stores it, Join combines the headings
of its children, Projection projects the heading of its child, Subquery
resolves the heading of its child (source lines 381 to 383, 420 to 422
and 461 to 463). -/
def Node.heading : Node → Heading
  | .base _ _ h _ => h
  | .join a b l _ => Heading.join a.heading b.heading l
  | .proj a ats rn _ => Heading.project a.heading ats rn
  | .subquery a _ => Heading.resolve a.heading

/-- Effect of RelationalOperand restrict on the restriction list (source
lines 102 to 113): the Python value None leaves the list unchanged, a
Python list extends the list element by element, and any other
restriction is appended as one element. -/
def restrictList (rs : List Restriction) (arg : Option Restriction) :
    List Restriction :=
  match arg with
  | none => rs
  | some (.pylist l) => rs ++ l
  | some r => rs ++ [r]

/-- In-place restriction, the underscore-restrict method dispatched on the
dynamic class of the node.  Every node except a Projection with a
computed heading uses the base class method, which updates its own
restriction list (lines 102 to 113).  A Projection whose heading is
computed instead evaluates Subquery(self) and-ed with the restriction
(lines 428 to 435); that expression builds a fresh Subquery around self
with an empty restriction list, copies it, and applies the base class
method to the copy, which is inlined here. -/
def Node.irestrict (n : Node) (arg : Option Restriction) : Node :=
  match n with
  | .proj a ats rn rs =>
    if (Node.heading (.proj a ats rn rs)).computed then
      .subquery (.proj a ats rn rs) (restrictList [] arg)
    else
      .proj a ats rn (restrictList rs arg)
  | .base cn f h rs => .base cn f h (restrictList rs arg)
  | .join a b l rs => .join a b l (restrictList rs arg)
  | .subquery a rs => .subquery a (restrictList rs arg)

/-- Copying restriction, the Python and operator (lines 121 to 128): copy
the node, replace its restriction list by a clone of the current list,
then apply the in-place restriction to the copy.  The clone is what keeps
the original node unchanged; on the level of values the result coincides
with the in-place form applied to an identical node. -/
def Node.andOp (n : Node) (arg : Option Restriction) : Node :=
  Node.irestrict (n.withRestrictions n.restrictions) arg

/-- State transition of the two restriction list cells involved in the
Python and operator (lines 121 to 128): the operator clones the list
(list(ret.restrictions) on line 126) before appending, so the list of the
receiver is returned unchanged in the first component while the list of
the new node, in the second component, is the appended clone. -/
def andListEffect (rs : List Restriction) (arg : Option Restriction) :
    List Restriction × List Restriction :=
  (rs, restrictList rs arg)

/-- State transition of the restriction list cell of the receiver under
the in-place restrict (lines 102 to 113): the same object is mutated and
returned, so its list becomes the appended list. -/
def iandListEffect (rs : List Restriction) (arg : Option Restriction) :
    List Restriction :=
  restrictList rs arg

/-- Join constructor (source lines 362 to 370), translated faithfully,
including the isinstance test on arg2, the connection comparison, and the
literal text of line 368, which wraps arg1 rather than arg2 when the
heading of arg2 is computed. -/
def mkJoin (arg1 : Node) (arg2 : PyObj) (left : Bool) :
    Except DJError Node :=
  match arg2 with
  | .other => .error (.msg "a relation can only be joined with another relation")
  | .rel b =>
    if arg1.connection ≠ b.connection then
      .error (.msg "Cannot join relations with different database connections")
    else
      let a1 := if arg1.heading.computed then Node.subquery arg1 [] else arg1
      let a2 := if b.heading.computed then Node.subquery arg1 [] else b
      .ok (.join a1 a2 left (a1.restrictions ++ a2.restrictions))

/-- Projection constructor (source lines 392 to 414) on inputs already
split into kept attributes and renamed attributes.  The surface parsing
of the arrow syntax (expression arrow alias) on lines 397 to 407 is pure
string classification and is not modelled, since no claim depends on it;
the constructor receives its result.  When the heading of the argument is
computed, the argument is wrapped in a Subquery and the restriction list
of the new node stays empty; otherwise the argument is stored as is and
its restriction list is inherited (lines 409 to 414). -/
def mkProjection (arg : Node) (attrs : List String)
    (renamed : List (String × String)) : Node :=
  if arg.heading.computed then
    .proj (.subquery arg []) attrs renamed []
  else
    .proj arg attrs renamed arg.restrictions

/-- Aggregation operator (source lines 88 to 100), translated faithfully:
it checks that group is a relation, builds Projection(Join(self, group,
left=True), ...), calls set_primary_key on the heading of the result, and
then falls off the end of the function body, so the Python function
returns None.  The Option in the result type records exactly that
returned value. -/
def aggregate (self : Node) (group : PyObj) (attrs : List String)
    (renamed : List (String × String)) : Except DJError (Option Node) :=
  match group with
  | .other => .error (.msg "The second argument must be a relation")
  | .rel _ =>
    match mkJoin self group true with
    | .error e => .error e
    | .ok j =>
      let ret := mkProjection j attrs renamed
      let _ := Heading.setPrimaryKey ret.heading self.heading.primaryKey
      .ok none

/-- Lowercase hexadecimal digit for a value below sixteen, as produced by
the percent-x format. -/
def hexDigitChar (n : Nat) : Char :=
  if n < 10 then Char.ofNat (48 + n) else Char.ofNat (87 + n)

/-- Numeric value of a lowercase hexadecimal digit, the inverse reading
used to prove injectivity of the rendering. -/
def hexVal (ch : Char) : Nat :=
  if 97 ≤ ch.toNat then ch.toNat - 87 else ch.toNat - 48

/-- Little endian hexadecimal digits of n, computed with explicit fuel so
that the function is structurally recursive; fuel at least n always
suffices. -/
def toHexCore : Nat → Nat → List Char
  | 0, _ => []
  | fuel + 1, n => if n = 0 then [] else hexDigitChar (n % 16) :: toHexCore fuel (n / 16)

/-- Value of a little endian digit list, left inverse of toHexCore. -/
def ofHexCore (l : List Char) : Nat :=
  l.foldr (fun ch acc => hexVal ch + 16 * acc) 0

/-- Python percent-x rendering of a nonnegative integer in lowercase
hexadecimal. -/
def toHex (n : Nat) : String :=
  if n = 0 then "0" else String.mk (toHexCore n n).reverse

/-- Alias minted by a Subquery from counter value c, the text underscore-s
percent-x of source line 459. -/
def aliasName (c : Nat) : String :=
  "_s" ++ toHex c

/-- Equality condition list for a dict restriction (source line 281):
attributes absent from the heading of the restricted relation are
dropped, values are rendered with repr, conditions are AND joined. -/
def dictCondition (h : Heading) (kvs : List (String × Value)) : String :=
  sepJoin " AND "
    ((kvs.filter fun kv => h.mem kv.1).map
      fun kv => "`" ++ kv.1 ++ "`=" ++ kv.2.reprS)

/-- Equality condition list for a record restriction (source line 283):
every field of the record is used, values are rendered by percent-s
formatting. -/
def recordCondition (kvs : List (String × Value)) : String :=
  sepJoin " AND " (kvs.map fun kv => "`" ++ kv.1 ++ "`=" ++ kv.2.strS)

/-- Classification used inside the OR branch of the where-clause
compiler, the local make_condition of source lines 279 to 286: a dict or
a record renders to its condition text, anything else is a domain
error. -/
def makeCondition (h : Heading) : Restriction → Except DJError String
  | .dict kvs => .ok (dictCondition h kvs)
  | .record kvs => .ok (recordCondition kvs)
  | _ => .error (.msg "invalid restriction type")

/-- Conditions of the elements of a sequence restriction, in order. -/
def orConditions (h : Heading) : List Restriction → Except DJError (List String)
  | [] => .ok []
  | r :: rest =>
    match makeCondition h r with
    | .error e => .error e
    | .ok s =>
      match orConditions h rest with
      | .error e => .error e
      | .ok ss => .ok (s :: ss)

/-- OR joined parenthesized conjunctions (source line 296). -/
def orString (cs : List String) : String :=
  "(" ++ sepJoin ") OR (" cs ++ ")"

/-- Final wrapping of one compiled condition (source line 305): the text
not, when the restriction was negated and the negation was not already
consumed, followed by the condition in parentheses. -/
def wrapCondition (negate : Bool) (s : String) : String :=
  (if negate then "not " else "") ++ "(" ++ s ++ ")"

/-- Membership test against a nested relation (source lines 298 to 301):
the comma joined attribute names common to both headings, the optional
not, and the SELECT of the common columns from the compiled FROM and
WHERE text of the nested relation. -/
def relCondition (h hn : Heading) (f w : String) (negate : Bool) : String :=
  let common := sepJoin "," (h.names.filter fun q => hn.names.contains q)
  "(" ++ common ++ ") " ++ (if negate then "not " else "") ++
    "in (SELECT " ++ common ++ " FROM " ++ f ++ w ++ ")"

mutual

/-- FROM clause of a node, threading the process wide Subquery counter
through evaluation in Python evaluation order: a base relation reports
its stored text (the abstract property of line 45), Join renders both
children around NATURAL JOIN (lines 385 to 388), Projection delegates to
its child (lines 424 to 426), and Subquery renders the full SELECT of its
child followed by a freshly minted alias, incrementing the counter after
the inner statement is rendered (lines 452 to 459). -/
def Node.fromClause : Node → Nat → Except DJError (String × Nat)
  | .base _ f _ _, c => .ok (f, c)
  | .join a b l _, c =>
    match Node.fromClause a c with
    | .error e => .error e
    | .ok (fa, c1) =>
      match Node.fromClause b c1 with
      | .error e => .error e
      | .ok (fb, c2) =>
        .ok (fa ++ " NATURAL " ++ (if l then "LEFT " else "") ++ "JOIN " ++ fb, c2)
  | .proj a _ _ _, c => Node.fromClause a c
  | .subquery a _, c =>
    match Node.makeSelect a none c with
    | .error e => .error e
    | .ok (s, c1) => .ok ("(" ++ s ++ ") as `" ++ aliasName (c1 + 1) ++ "`", c1 + 1)

/-- WHERE clause of a node (source lines 271 to 307): empty text when the
restriction list is empty, otherwise the compiled conditions joined by
AND after the WHERE keyword. -/
def Node.whereClause : Node → Nat → Except DJError (String × Nat)
  | .base cn f h rs, c =>
    if rs.isEmpty then .ok ("", c)
    else whereBody (Node.heading (.base cn f h rs)) rs c
  | .join a b l rs, c =>
    if rs.isEmpty then .ok ("", c)
    else whereBody (Node.heading (.join a b l rs)) rs c
  | .proj a ats rn rs, c =>
    if rs.isEmpty then .ok ("", c)
    else whereBody (Node.heading (.proj a ats rn rs)) rs c
  | .subquery a rs, c =>
    if rs.isEmpty then .ok ("", c)
    else whereBody (Node.heading (.subquery a rs)) rs c

/-- Nonempty case of the WHERE clause (source line 307). -/
def whereBody (h : Heading) (rs : List Restriction) (c : Nat) :
    Except DJError (String × Nat) :=
  match compileList h rs c with
  | .error e => .error e
  | .ok (cs, c1) => .ok (" WHERE " ++ sepJoin " AND " cs, c1)

/-- Compile the restriction list in order (the loop of source lines 288
to 305), threading the counter. -/
def compileList (h : Heading) : List Restriction → Nat → Except DJError (List String × Nat)
  | [], c => .ok ([], c)
  | r :: rest, c =>
    match compileOne h r c with
    | .error e => .error e
    | .ok (s, c1) =>
      match compileList h rest c1 with
      | .error e => .error e
      | .ok (ss, c2) => .ok (s :: ss, c2)

/-- Compile one restriction (the body of the loop, source lines 290 to
305).  The Not marker is unwrapped one level only; a nested relation
consumes the negation inside the membership test (line 302), while every
other class keeps it for the final wrapping; a Not wrapping another Not
reaches the assert of line 304 and fails. -/
def compileOne (h : Heading) : Restriction → Nat → Except DJError (String × Nat)
  | .dict kvs, c => .ok (wrapCondition false (dictCondition h kvs), c)
  | .record kvs, c => .ok (wrapCondition false (recordCondition kvs), c)
  | .ndarr qs, c => .ok (wrapCondition false (orString (qs.map recordCondition)), c)
  | .pylist l, c =>
    match orConditions h l with
    | .error e => .error e
    | .ok cs => .ok (wrapCondition false (orString cs), c)
  | .rel m, c =>
    match Node.fromClause m c with
    | .error e => .error e
    | .ok (fm, c1) =>
      match Node.whereClause m c1 with
      | .error e => .error e
      | .ok (wm, c2) =>
        .ok (wrapCondition false (relCondition h m.heading fm wm false), c2)
  | .neg (.dict kvs), c => .ok (wrapCondition true (dictCondition h kvs), c)
  | .neg (.record kvs), c => .ok (wrapCondition true (recordCondition kvs), c)
  | .neg (.ndarr qs), c => .ok (wrapCondition true (orString (qs.map recordCondition)), c)
  | .neg (.pylist l), c =>
    match orConditions h l with
    | .error e => .error e
    | .ok cs => .ok (wrapCondition true (orString cs), c)
  | .neg (.rel m), c =>
    match Node.fromClause m c with
    | .error e => .error e
    | .ok (fm, c1) =>
      match Node.whereClause m c1 with
      | .error e => .error e
      | .ok (wm, c2) =>
        .ok (wrapCondition false (relCondition h m.heading fm wm true), c2)
  | .neg (.neg _), _ => .error .assertionFailed

/-- Single statement compiler (source lines 145 to 148): SELECT, the
attribute specification (the heading select list when none is given),
FROM, the FROM clause, then the WHERE clause. -/
def Node.makeSelect (n : Node) (spec : Option String) (c : Nat) :
    Except DJError (String × Nat) :=
  match Node.fromClause n c with
  | .error e => .error e
  | .ok (f, c1) =>
    match Node.whereClause n c1 with
    | .error e => .error e
    | .ok (w, c2) =>
      .ok ("SELECT " ++ spec.getD (Node.heading n).asSql ++ " FROM " ++ f ++ w, c2)

end

/-- Row of a query result fetched as a dict: an ordered list of field
name and value pairs, in the column order of the statement. -/
abbrev Row : Type := List (String × Value)

/-- Python subscript ret[name] on a row dict: the value under the first
matching key, a KeyError when the key is absent. -/
def rowLookup (r : Row) (k : String) : Except DJError Value :=
  match r.find? (fun p => p.1 == k) with
  | none => .error (.keyError k)
  | some p => .ok p.2

/-- Total variant of the row subscript, giving the value under the first
matching key and a default on a missing key; it agrees with rowLookup
whenever the key is present. -/
def rowGet (r : Row) (k : String) : Value :=
  match r.find? (fun p => p.1 == k) with
  | none => ⟨"", ""⟩
  | some p => p.2

/-- Truthiness of a fetched row object: the Python value None (no row,
modelled by the absence of a row) and the empty dict are falsy. -/
def rowTruthy (r : Row) : Bool :=
  !r.isEmpty

/-- Ordered result mapping of fetch1 (source lines 214 to 215): one pair
per heading name in heading order, the value passed through unpack when
the attribute is a blob. -/
def fetchFields (h : Heading) (unpack : Value → Value) (ret : Row) :
    List String → Except DJError Row
  | [] => .ok []
  | name :: rest =>
    match rowLookup ret name with
    | .error e => .error e
    | .ok v =>
      match fetchFields h unpack ret rest with
      | .error e => .error e
      | .ok tl => .ok ((name, if h.blobs.contains name then unpack v else v) :: tl)

/-- The fetch1 method (source lines 204 to 215).  The rows parameter is
the result set the cursor of the external connection would yield for the
compiled statement, in order; the first fetchone gives its head, the
second fetchone gives the next row.  The error is raised when the first
row is missing or falsy, or when a second, truthy row exists; otherwise
the ordered mapping with blobs unpacked is returned. -/
def fetch1 (n : Node) (unpack : Value → Value) (rows : List Row) :
    Except DJError Row :=
  match rows with
  | [] => .error (.msg "fetch1 should only be used for relations with exactly one tuple")
  | ret :: rest =>
    if !rowTruthy ret || (match rest with | [] => false | r2 :: _ => rowTruthy r2) then
      .error (.msg "fetch1 should only be used for relations with exactly one tuple")
    else
      fetchFields n.heading unpack ret n.heading.names

/-- Number of tuples (source lines 150 to 155): the scalar the external
connection returns for the compiled SELECT count(*) statement.  The
external connection is a parameter mapping statement text to the count;
the counter threading mirrors the process wide Subquery counter. -/
def lenOf (query : String → Nat) (n : Node) (c : Nat) : Except DJError Nat :=
  match Node.makeSelect n (some "count(*)") c with
  | .error e => .error e
  | .ok (s, _) => .ok (query s)

/-- Nodes whose in-place restriction is the inherited base class method:
every node except a Projection whose own heading is computed (the only
override, source lines 428 to 435). -/
def Node.usesBaseRestrict : Node → Bool
  | .proj a ats rn rs => !(Node.heading (.proj a ats rn rs)).computed
  | _ => true

/-- Concrete value rendering the number one. -/
def vOne : Value := ⟨"1", "1"⟩

/-- Concrete value rendering the number two. -/
def vTwo : Value := ⟨"2", "2"⟩

/-- Concrete heading of a plain base relation with primary key id and one
dependent attribute v. -/
def hA : Heading := ⟨["id", "v"], ["id"], [], "`id`,`v`", false⟩

/-- Concrete heading whose computed flag is set, as reported for a
relation with renamed or aggregated columns. -/
def hBc : Heading := ⟨["id", "w"], ["id"], [], "`id`,(w*2) as `w`", true⟩

/-- Concrete heading of a second plain base relation sharing the id
attribute. -/
def hM : Heading := ⟨["id", "x"], ["id"], [], "`id`,`x`", false⟩

/-- Concrete heading with one blob attribute b. -/
def hF : Heading := ⟨["id", "b"], ["id"], ["b"], "`id`,`b`", false⟩

/-- Concrete base relation over heading hA. -/
def relA : Node := .base 0 "`db`.`a`" hA []

/-- Concrete base relation whose heading reports computed. -/
def relBc : Node := .base 0 "`db`.`bc`" hBc []

/-- Concrete base relation over heading hM. -/
def relM : Node := .base 0 "`db`.`m`" hM []

/-- Concrete base relation over heading hF. -/
def relF : Node := .base 0 "`db`.`f`" hF []

/-- Concrete Projection of relA with one renamed attribute, whose own
heading is therefore computed. -/
def projD : Node := mkProjection relA [] [("d", "v*2")]

/-- Concrete blob codec marking the values it decodes. -/
def unpackTag : Value → Value :=
  fun v => ⟨"unpacked " ++ v.reprS, "unpacked " ++ v.strS⟩

/-! Helper lemmas shared by several developments below. -/

theorem Node.withRestrictions_self (n : Node) :
    n.withRestrictions n.restrictions = n := by
  cases n <;> rfl

theorem restrictList_single (rs : List Restriction) (r : Restriction)
    (hr : ∀ l, r ≠ .pylist l) :
    restrictList rs (some r) = rs ++ [r] := by
  cases r with
  | pylist l => exact absurd rfl (hr l)
  | dict kvs => rfl
  | record kvs => rfl
  | ndarr qs => rfl
  | rel m => rfl
  | neg x => rfl

/-! Claim C1: the operand wrapped for a computed second operand. -/

/-- C1: the claim states that when the heading of arg2 is computed, the
second child of the Join is a Subquery wrapping arg2.  Evaluating the
Join constructor on relA and the computed relation relBc shows that the
code instead stores a Subquery wrapping the FIRST operand relA as the
second child (line 368 of the source wraps arg1), and that this child is
not the Subquery of relBc which the claim requires. -/
theorem C1_join_computed_arg2_wraps_arg1 :
    mkJoin relA (.rel relBc) false =
      .ok (.join relA (.subquery relA []) false []) ∧
    (Node.subquery relA [] : Node) ≠ .subquery relBc [] := by
  constructor
  · simp [mkJoin, Node.connection, Node.heading, relA, relBc, hA, hBc,
      Node.restrictions]
  · simp [relA, relBc, hA, hBc]

/-! Claim C2: the value returned by aggregate. -/

/-- C2: the claim states that aggregate returns the relation node
Projection(Join(self, group, left=true), ...) with an overridden primary
key, and fails when group is not a relation.  The error branch behaves as
claimed, but the success path of the source (lines 88 to 100) builds the
projection and then falls off the function body without a return
statement, so the Python function returns None: evaluating the embedded
translation on two concrete base relations of one connection yields no
relation node at all. -/
theorem C2_aggregate_returns_none :
    aggregate relA (.rel relM) [] [] = .ok none ∧
    aggregate relA .other [] [] =
      .error (.msg "The second argument must be a relation") := by
  constructor
  · simp [aggregate, mkJoin, Node.connection, relA, relM, hA, hM,
      Node.heading, mkProjection, Node.restrictions]
  · rfl

/-! Claim C4: restricting a Projection whose own heading is computed. -/

/-- C4: for every Projection node whose own heading reports computed,
restricting it, in place or by the copying operator, wraps the Projection
in a Subquery and attaches the restriction to that Subquery, leaving the
restriction list of the Projection itself untouched; when the heading is
not computed the restriction is appended directly to the Projection. -/
theorem C4_restrict_computed_projection :
    (∀ (a : Node) (ats : List String) (rn : List (String × String))
        (rs : List Restriction) (arg : Option Restriction),
      (Node.heading (.proj a ats rn rs)).computed = true →
        Node.irestrict (.proj a ats rn rs) arg =
          .subquery (.proj a ats rn rs) (restrictList [] arg) ∧
        Node.andOp (.proj a ats rn rs) arg =
          .subquery (.proj a ats rn rs) (restrictList [] arg)) ∧
    (∀ (a : Node) (ats : List String) (rn : List (String × String))
        (rs : List Restriction) (arg : Option Restriction),
      (Node.heading (.proj a ats rn rs)).computed = false →
        Node.irestrict (.proj a ats rn rs) arg =
          .proj a ats rn (restrictList rs arg) ∧
        Node.andOp (.proj a ats rn rs) arg =
          .proj a ats rn (restrictList rs arg)) := by
  constructor
  · intro a ats rn rs arg hcomp
    constructor
    · simp [Node.irestrict, hcomp]
    · simp [Node.andOp, Node.withRestrictions, Node.restrictions,
        Node.irestrict, hcomp]
  · intro a ats rn rs arg hcomp
    constructor
    · simp [Node.irestrict, hcomp]
    · simp [Node.andOp, Node.withRestrictions, Node.restrictions,
        Node.irestrict, hcomp]

/-- C4 witness: the concrete Projection of relA renaming one attribute
has a computed heading, and restricting it with a dict lands the
restriction on a Subquery wrapper around the unchanged Projection. -/
theorem C4_witness :
    Node.irestrict (Node.proj relA [] [("d", "v*2")] [])
        (some (.dict [("id", vOne)])) =
      .subquery (Node.proj relA [] [("d", "v*2")] [])
        [.dict [("id", vOne)]] := by
  have h := (C4_restrict_computed_projection.1 relA [] [("d", "v*2")] []
    (some (.dict [("id", vOne)]))
    (by simp [Node.heading, Heading.project, relA, hA])).1
  simpa [restrictList] using h

/-! Claim C5: copy semantics of the and operator versus the in-place
restrict. -/

/-- C5 counterexample: the claim states that for every restriction C the
copying operator appends C itself to the clone of the list.  Restricting
relA with a Python list of two dicts shows otherwise: the list is
extended element by element, so the resulting restriction list is not the
singleton holding the list value. -/
theorem C5_counterexample_list_not_appended :
    (Node.andOp relA
        (some (.pylist [.dict [("id", vOne)], .dict [("v", vTwo)]]))).restrictions ≠
      relA.restrictions ++
        [Restriction.pylist [.dict [("id", vOne)], .dict [("v", vTwo)]]] := by
  simp [Node.andOp, Node.irestrict, Node.withRestrictions, Node.restrictions,
    restrictList, relA]

/-- C5 as amended: for every node with the inherited restrict behavior
(every node except a Projection with computed heading) and every single
restriction C that is not a Python list, the copying operator leaves the
restriction list of the receiver unchanged and produces a node whose list
is the clone with C appended, while the in-place restrict turns the list
of the receiver itself into the appended list; a Python list is extended
element by element instead of appended. -/
theorem C5_copy_vs_inplace :
    ∀ (rs : List Restriction) (r : Restriction), (∀ l, r ≠ .pylist l) →
      andListEffect rs (some r) = (rs, rs ++ [r]) ∧
      iandListEffect rs (some r) = rs ++ [r] ∧
      (∀ (n : Node), n.usesBaseRestrict = true →
        Node.irestrict n (some r) = n.withRestrictions (n.restrictions ++ [r]) ∧
        Node.andOp n (some r) = n.withRestrictions (n.restrictions ++ [r])) ∧
      (∀ (ls : List Restriction),
        andListEffect rs (some (.pylist ls)) = (rs, rs ++ ls)) := by
  intro rs r hr
  have hsingle := restrictList_single rs r hr
  refine ⟨by simp [andListEffect, hsingle], by simp [iandListEffect, hsingle], ?_, ?_⟩
  · intro n hn
    have hgen : ∀ (rs0 : List Restriction),
        restrictList rs0 (some r) = rs0 ++ [r] :=
      fun rs0 => restrictList_single rs0 r hr
    cases n with
    | base cn f h rs0 =>
      constructor
      · simp [Node.irestrict, Node.withRestrictions, Node.restrictions, hgen]
      · simp [Node.andOp, Node.irestrict, Node.withRestrictions,
          Node.restrictions, hgen]
    | join a b l rs0 =>
      constructor
      · simp [Node.irestrict, Node.withRestrictions, Node.restrictions, hgen]
      · simp [Node.andOp, Node.irestrict, Node.withRestrictions,
          Node.restrictions, hgen]
    | proj a ats rn rs0 =>
      have hcomp : (Node.heading (.proj a ats rn rs0)).computed = false := by
        simpa [Node.usesBaseRestrict] using hn
      constructor
      · simp [Node.irestrict, Node.withRestrictions, Node.restrictions,
          hgen, hcomp]
      · simp [Node.andOp, Node.irestrict, Node.withRestrictions,
          Node.restrictions, hgen, hcomp]
    | subquery a rs0 =>
      constructor
      · simp [Node.irestrict, Node.withRestrictions, Node.restrictions, hgen]
      · simp [Node.andOp, Node.irestrict, Node.withRestrictions,
          Node.restrictions, hgen]
  · intro ls
    simp [andListEffect, restrictList]

/-- C5 witness: concrete instantiation on relA and a dict restriction. -/
theorem C5_witness :
    andListEffect [] (some (.dict [("id", vOne)])) =
      ([], [.dict [("id", vOne)]]) ∧
    Node.andOp relA (some (.dict [("id", vOne)])) =
      Node.withRestrictions relA (relA.restrictions ++ [.dict [("id", vOne)]]) := by
  have h := C5_copy_vs_inplace [] (.dict [("id", vOne)]) (by intro l; simp)
  exact ⟨h.1, ((h.2.2.1 relA (by simp [Node.usesBaseRestrict, relA]))).2⟩

/-! Claim C10: restricting with the Python value None. -/

/-- C10 counterexample: the claim states that for every relation node the
copying operator with None returns a copy whose restriction list equals
the original and whose generated SQL text is identical.  On the concrete
Projection projD, whose own heading is computed, the operator wraps the
node in a fresh Subquery: the restriction list is indeed unchanged, but
the compiled SELECT text differs. -/
theorem C10_counterexample_computed_projection :
    Node.makeSelect (Node.andOp projD none) none 0 ≠
      Node.makeSelect projD none 0 ∧
    (Node.andOp projD none).restrictions = projD.restrictions := by
  have h1 : Node.makeSelect (Node.andOp projD none) none 0 =
      .ok ("SELECT `id`,`d` FROM (SELECT `id`,(v*2) as `d` FROM `db`.`a`) as `_s1`", 1) := by
    simp [projD, mkProjection, Node.andOp, Node.irestrict, Node.heading, relA,
      hA, Heading.project, Heading.resolve, restrictList, Node.makeSelect,
      Node.fromClause, Node.whereClause, whereBody, aliasName, toHex,
      toHexCore, hexDigitChar, Node.restrictions, Node.withRestrictions, sepJoin]
  have h2 : Node.makeSelect projD none 0 =
      .ok ("SELECT `id`,(v*2) as `d` FROM `db`.`a`", 0) := by
    simp [projD, mkProjection, Node.heading, relA, hA, Heading.project,
      Node.makeSelect, Node.fromClause, Node.whereClause, Node.restrictions,
      sepJoin]
  constructor
  · rw [h1, h2]; simp
  · simp [projD, mkProjection, Node.andOp, Node.irestrict, Node.heading, relA,
      hA, Heading.project, restrictList, Node.restrictions,
      Node.withRestrictions]

/-- C10 as amended: for every node with the inherited restrict behavior
(every node except a Projection with computed heading), restricting with
None is a no-op for the in-place form, the copying form returns an equal
node, and the generated statement text is identical; a Projection with
computed heading is instead wrapped in a fresh Subquery that adds no
restriction but changes the statement text. -/
theorem C10_none_restriction_noop :
    ∀ (n : Node), n.usesBaseRestrict = true →
      Node.irestrict n none = n ∧ Node.andOp n none = n ∧
      ∀ (c : Nat),
        Node.makeSelect (Node.andOp n none) none c = Node.makeSelect n none c := by
  intro n hn
  have hi : Node.irestrict n none = n := by
    cases n with
    | proj a ats rn rs0 =>
      have hcomp : (Node.heading (.proj a ats rn rs0)).computed = false := by
        simpa [Node.usesBaseRestrict] using hn
      simp [Node.irestrict, hcomp, restrictList]
    | base cn f h rs0 => simp [Node.irestrict, restrictList]
    | join a b l rs0 => simp [Node.irestrict, restrictList]
    | subquery a rs0 => simp [Node.irestrict, restrictList]
  have ha : Node.andOp n none = n := by
    simp only [Node.andOp, Node.withRestrictions_self, hi]
  exact ⟨hi, ha, fun c => by rw [ha]⟩

/-- C10 witness: concrete instantiation on the base relation relA. -/
theorem C10_witness :
    Node.irestrict relA none = relA ∧ Node.andOp relA none = relA := by
  have h := C10_none_restriction_noop relA (by simp [Node.usesBaseRestrict, relA])
  exact ⟨h.1, h.2.1⟩

/-! Claim C9: restricting with an empty sequence. -/

/-- C9 counterexample: the claim states that for every relation A the
node A and-ed with the empty list has the same restriction list and hence
the same compiled SELECT statement as A.  On the concrete Projection
projD, whose own heading is computed, the restriction list is unchanged
but the node is wrapped in a Subquery and the compiled SELECT count
statement differs, refuting the claimed statement identity. -/
theorem C9_counterexample_computed_projection :
    Node.makeSelect (Node.andOp projD (some (.pylist []))) (some "count(*)") 0 ≠
      Node.makeSelect projD (some "count(*)") 0 ∧
    (Node.andOp projD (some (.pylist []))).restrictions = projD.restrictions := by
  have h1 : Node.makeSelect (Node.andOp projD (some (.pylist []))) (some "count(*)") 0 =
      .ok ("SELECT count(*) FROM (SELECT `id`,(v*2) as `d` FROM `db`.`a`) as `_s1`", 1) := by
    simp [projD, mkProjection, Node.andOp, Node.irestrict, Node.heading, relA,
      hA, Heading.project, Heading.resolve, restrictList, Node.makeSelect,
      Node.fromClause, Node.whereClause, whereBody, aliasName, toHex,
      toHexCore, hexDigitChar, Node.restrictions, Node.withRestrictions, sepJoin]
  have h2 : Node.makeSelect projD (some "count(*)") 0 =
      .ok ("SELECT count(*) FROM `db`.`a`", 0) := by
    simp [projD, mkProjection, Node.heading, relA, hA, Heading.project,
      Node.makeSelect, Node.fromClause, Node.whereClause, Node.restrictions,
      sepJoin]
  constructor
  · rw [h1, h2]; simp
  · simp [projD, mkProjection, Node.andOp, Node.irestrict, Node.heading, relA,
      hA, Heading.project, restrictList, Node.restrictions,
      Node.withRestrictions]

/-- C9 as amended: for every relation node with the inherited restrict
behavior (every node except a Projection with computed heading), the
empty list restriction is an identity: the node is unchanged, so the
count statement and the reported number of tuples are unchanged; a
Projection with computed heading gains a Subquery wrapper instead, which
changes the statement text while still adding no restriction. -/
theorem C9_empty_list_restriction_identity :
    ∀ (n : Node), n.usesBaseRestrict = true →
      Node.andOp n (some (.pylist [])) = n ∧
      ∀ (q : String → Nat) (c : Nat),
        lenOf q (Node.andOp n (some (.pylist []))) c = lenOf q n c := by
  intro n hn
  have hi : Node.irestrict n (some (.pylist [])) = n := by
    cases n with
    | proj a ats rn rs0 =>
      have hcomp : (Node.heading (.proj a ats rn rs0)).computed = false := by
        simpa [Node.usesBaseRestrict] using hn
      simp [Node.irestrict, hcomp, restrictList]
    | base cn f h rs0 => simp [Node.irestrict, restrictList]
    | join a b l rs0 => simp [Node.irestrict, restrictList]
    | subquery a rs0 => simp [Node.irestrict, restrictList]
  have ha : Node.andOp n (some (.pylist [])) = n := by
    simp only [Node.andOp, Node.withRestrictions_self, hi]
  exact ⟨ha, fun q c => by rw [ha]⟩

/-- C9 witness: concrete instantiation on the base relation relA with a
concrete external count function. -/
theorem C9_witness :
    Node.andOp relA (some (.pylist [])) = relA ∧
    lenOf (fun _ => 5) (Node.andOp relA (some (.pylist []))) 0 =
      lenOf (fun _ => 5) relA 0 := by
  have h := C9_empty_list_restriction_identity relA
    (by simp [Node.usesBaseRestrict, relA])
  exact ⟨h.1, h.2 (fun _ => 5) 0⟩

/-! Claim C3: how a list restriction is rendered in the WHERE clause. -/

theorem compileList_dicts (h : Heading) (ql : List (List (String × Value)))
    (c : Nat) :
    compileList h (ql.map Restriction.dict) c =
      .ok (ql.map (fun kvs => wrapCondition false (dictCondition h kvs)), c) := by
  induction ql with
  | nil => simp [compileList]
  | cons q rest ih => simp [compileList, compileOne, ih]

theorem orConditions_dicts (h : Heading) (ql : List (List (String × Value))) :
    orConditions h (ql.map Restriction.dict) = .ok (ql.map (dictCondition h)) := by
  induction ql with
  | nil => simp [orConditions]
  | cons q rest ih => simp [orConditions, makeCondition, ih]

/-- C3 counterexample: the claim states that restricting with a list of
mappings renders the restriction as OR joined conjunctions in the WHERE
clause.  Restricting relA with a concrete list of two dicts shows the
compiled clause AND joins the two mappings as independent parenthesized
conditions, and that this clause differs from the OR joined form the
claim requires. -/
theorem C3_counterexample_list_and_joined :
    Node.whereClause
        (Node.andOp relA
          (some (.pylist [.dict [("id", vOne)], .dict [("v", vTwo)]]))) 0 =
      .ok (" WHERE (`id`=1) AND (`v`=2)", 0) ∧
    " WHERE (`id`=1) AND (`v`=2)" ≠ " WHERE ((`id`=1) OR (`v`=2))" := by
  constructor
  · simp [Node.andOp, Node.irestrict, Node.withRestrictions, Node.restrictions,
      restrictList, Node.whereClause, whereBody, compileList, compileOne,
      Node.heading, relA, hA, vOne, vTwo, dictCondition, Heading.mem, sepJoin,
      wrapCondition]
  · decide

/-- C3 as amended: restricting with a Python list extends the restriction
list of the node element by element, so the compiled WHERE clause AND
joins the mappings as independent parenthesized conditions; only a
sequence standing as a single element of the restriction list (as happens
for a numpy record array, a nested list element, or a sequence under the
Not marker) is rendered as OR joined parenthesized conjunctions. -/
theorem C3_list_restriction_and_joins :
    ∀ (cn : Nat) (f : String) (h : Heading)
      (ql : List (List (String × Value))) (c : Nat),
      ql ≠ [] →
      (Node.whereClause
          (Node.andOp (.base cn f h []) (some (.pylist (ql.map Restriction.dict)))) c =
        .ok (" WHERE " ++ sepJoin " AND "
          (ql.map fun kvs => wrapCondition false (dictCondition h kvs)), c)) ∧
      (Node.whereClause (.base cn f h [.pylist (ql.map Restriction.dict)]) c =
        .ok (" WHERE " ++ wrapCondition false (orString (ql.map (dictCondition h))), c)) := by
  intro cn f h ql c hne
  have hmapne : ql.map Restriction.dict ≠ [] := by
    simpa using hne
  constructor
  · have hnode : Node.andOp (.base cn f h []) (some (.pylist (ql.map Restriction.dict))) =
        .base cn f h (ql.map Restriction.dict) := by
      simp [Node.andOp, Node.irestrict, Node.withRestrictions,
        Node.restrictions, restrictList]
    rw [hnode]
    have hie : (ql.map Restriction.dict).isEmpty = false := by
      cases ql with
      | nil => exact absurd rfl hne
      | cons q rest => rfl
    simp [Node.whereClause, hie, whereBody, compileList_dicts, Node.heading]
  · simp [Node.whereClause, whereBody, compileList, compileOne,
      orConditions_dicts, Node.heading, sepJoin]

/-- C3 witness: concrete instantiation of the amended statement on relA
and a list of two dicts. -/
theorem C3_witness :
    Node.whereClause
        (Node.andOp (.base 0 "`db`.`a`" hA [])
          (some (.pylist ([[("id", vOne)], [("v", vTwo)]].map Restriction.dict)))) 0 =
      .ok (" WHERE " ++ sepJoin " AND "
        ([[("id", vOne)], [("v", vTwo)]].map
          fun kvs => wrapCondition false (dictCondition hA kvs)), 0) := by
  exact (C3_list_restriction_and_joins 0 "`db`.`a`" hA
    [[("id", vOne)], [("v", vTwo)]] 0 (by simp)).1

/-! Claim C7: compilation of a nested relation restriction. -/

/-- C7: when the restriction list of a relation holds a nested relation
node, optionally under the Not marker, the compiled WHERE clause renders
it as the membership test of relCondition: the comma joined attribute
names common to both headings, the text not exactly when the marker was
present, and the SELECT of the common columns from the FROM and WHERE
text of the nested relation, the whole condition parenthesized after the
WHERE keyword. -/
theorem C7_nested_relation_clause :
    ∀ (cn : Nat) (f0 : String) (h : Heading) (m : Node) (c c1 c2 : Nat)
      (fm wm : String),
      Node.fromClause m c = .ok (fm, c1) →
      Node.whereClause m c1 = .ok (wm, c2) →
      (Node.whereClause (.base cn f0 h [.rel m]) c =
        .ok (" WHERE " ++
          wrapCondition false (relCondition h m.heading fm wm false), c2)) ∧
      (Node.whereClause (.base cn f0 h [.neg (.rel m)]) c =
        .ok (" WHERE " ++
          wrapCondition false (relCondition h m.heading fm wm true), c2)) := by
  intro cn f0 h m c c1 c2 fm wm hf hw
  constructor
  · simp [Node.whereClause, whereBody, compileList, compileOne, hf, hw,
      Node.heading, sepJoin]
  · simp [Node.whereClause, whereBody, compileList, compileOne, hf, hw,
      Node.heading, sepJoin]

/-- C7 witness: concrete instantiation restricting relA by the nested
relation relM, whose only common attribute is id; the rendered clause is
given literally. -/
theorem C7_witness :
    Node.whereClause (.base 0 "`db`.`a`" hA [.rel relM]) 0 =
      .ok (" WHERE " ++
        wrapCondition false
          (relCondition hA (Node.heading relM) "`db`.`m`" "" false), 0) ∧
    " WHERE " ++
        wrapCondition false
          (relCondition hA (Node.heading relM) "`db`.`m`" "" false) =
      " WHERE ((id) in (SELECT id FROM `db`.`m`))" := by
  constructor
  · exact (C7_nested_relation_clause 0 "`db`.`a`" hA relM 0 0 0 "`db`.`m`" ""
      (by simp [Node.fromClause, relM]) (by simp [Node.whereClause, relM])).1
  · simp [wrapCondition, relCondition, Node.heading, relM, hM, hA, sepJoin]

/-! Claim C6: fetch1 cardinality and blob unpacking. -/

theorem rowLookup_ok (r : Row) (nm : String)
    (hmem : nm ∈ r.map Prod.fst) :
    rowLookup r nm = .ok (rowGet r nm) := by
  induction r with
  | nil => simp at hmem
  | cons p rest ih =>
    by_cases hp : p.1 = nm
    · simp [rowLookup, rowGet, List.find?, hp]
    · have hmem2 : nm ∈ rest.map Prod.fst := by
        simp at hmem
        rcases hmem with h1 | h2
        · exact absurd h1.symm hp
        · simpa using h2
      have hbeq : (p.1 == nm) = false := by
        simp [hp]
      simpa [rowLookup, rowGet, List.find?, hbeq] using ih hmem2

theorem fetchFields_ok (h : Heading) (unpack : Value → Value) (ret : Row)
    (names : List String)
    (hk : ∀ nm ∈ names, nm ∈ ret.map Prod.fst) :
    fetchFields h unpack ret names =
      .ok (names.map fun nm =>
        (nm, if h.blobs.contains nm then unpack (rowGet ret nm)
             else rowGet ret nm)) := by
  induction names with
  | nil => simp [fetchFields]
  | cons nm rest ih =>
    have h1 := rowLookup_ok ret nm (hk nm (by simp))
    have h2 := ih (fun x hx => hk x (by simp [hx]))
    simp [fetchFields, h1, h2]

/-- C6: for every relation node and result set whose rows carry exactly
the heading attribute names as keys (the shape every SQL result has, with
at least one column), fetch1 fails with the cardinality domain error when
the result has zero rows or more than one row, and on exactly one row
returns the ordered field to value mapping in heading order with every
blob attribute passed through the external unpack codec. -/
theorem C6_fetch1_cardinality :
    ∀ (n : Node) (unpack : Value → Value) (rows : List Row),
      (∀ r ∈ rows, r.map Prod.fst = (Node.heading n).names) →
      (Node.heading n).names ≠ [] →
      ((rows.length ≠ 1 →
        fetch1 n unpack rows =
          .error (.msg "fetch1 should only be used for relations with exactly one tuple")) ∧
       (∀ ret, rows = [ret] →
        fetch1 n unpack rows =
          .ok ((Node.heading n).names.map fun nm =>
            (nm, if (Node.heading n).blobs.contains nm
                 then unpack (rowGet ret nm) else rowGet ret nm)))) := by
  intro n unpack rows hkeys hne
  constructor
  · intro hlen
    cases rows with
    | nil => rfl
    | cons r rest =>
      cases rest with
      | nil => simp at hlen
      | cons r2 rest2 =>
        have hr2 : r2.map Prod.fst = (Node.heading n).names :=
          hkeys r2 (by simp)
        have htr : rowTruthy r2 = true := by
          cases hr2e : r2 with
          | nil => rw [hr2e] at hr2; exact absurd hr2.symm hne
          | cons p ps => rfl
        simp [fetch1, htr]
  · intro ret hrows
    subst hrows
    have hr : ret.map Prod.fst = (Node.heading n).names := hkeys ret (by simp)
    have htr : rowTruthy ret = true := by
      cases hre : ret with
      | nil => rw [hre] at hr; exact absurd hr.symm hne
      | cons p ps => rfl
    have hfields := fetchFields_ok n.heading unpack ret (Node.heading n).names
      (fun nm hnm => by rw [hr]; exact hnm)
    simp [fetch1, htr, hfields]

/-- C6 witness: relF has the blob attribute b; with one concrete row the
mapping is returned with b decoded by the concrete codec, while the empty
result and a two row result fail with the cardinality error. -/
theorem C6_witness :
    fetch1 relF unpackTag [[("id", vOne), ("b", vTwo)]] =
      .ok [("id", vOne), ("b", ⟨"unpacked 2", "unpacked 2"⟩)] ∧
    fetch1 relF unpackTag [] =
      .error (.msg "fetch1 should only be used for relations with exactly one tuple") ∧
    fetch1 relF unpackTag [[("id", vOne), ("b", vTwo)], [("id", vTwo), ("b", vOne)]] =
      .error (.msg "fetch1 should only be used for relations with exactly one tuple") := by
  refine ⟨?_, ?_, ?_⟩
  · have h := (C6_fetch1_cardinality relF unpackTag [[("id", vOne), ("b", vTwo)]]
      (by simp [Node.heading, relF, hF]) (by simp [Node.heading, relF, hF])).2
      [("id", vOne), ("b", vTwo)] rfl
    simpa [Node.heading, relF, hF, rowGet, List.find?, vOne, vTwo, unpackTag] using h
  · exact (C6_fetch1_cardinality relF unpackTag []
      (by simp) (by simp [Node.heading, relF, hF])).1 (by simp)
  · exact (C6_fetch1_cardinality relF unpackTag
      [[("id", vOne), ("b", vTwo)], [("id", vTwo), ("b", vOne)]]
      (by simp [Node.heading, relF, hF]) (by simp [Node.heading, relF, hF])).1
      (by simp)

/-! Claim C8: distinctness of the aliases minted by Subquery nodes.  The
lemmas below establish that the hexadecimal rendering is injective on
positive counters and that every compilation function only ever moves the
shared counter upward. -/

theorem hexVal_hexDigitChar : ∀ d : Nat, d < 16 → hexVal (hexDigitChar d) = d := by
  intro d hd
  interval_cases d <;> decide

theorem ofHexCore_toHexCore : ∀ (fuel n : Nat), n ≤ fuel →
    ofHexCore (toHexCore fuel n) = n := by
  intro fuel
  induction fuel with
  | zero =>
    intro n hn
    interval_cases n
    rfl
  | succ fuel ih =>
    intro n hn
    by_cases h0 : n = 0
    · subst h0; rfl
    · have hdiv : n / 16 ≤ fuel := by
        have := Nat.div_lt_self (Nat.pos_of_ne_zero h0) (by omega : 1 < 16)
        omega
      have hmod : n % 16 < 16 := Nat.mod_lt _ (by omega)
      calc ofHexCore (toHexCore (fuel + 1) n)
          = ofHexCore (hexDigitChar (n % 16) :: toHexCore fuel (n / 16)) := by
            simp [toHexCore, h0]
        _ = hexVal (hexDigitChar (n % 16)) + 16 * ofHexCore (toHexCore fuel (n / 16)) := by
            simp [ofHexCore]
        _ = n % 16 + 16 * (n / 16) := by
            rw [hexVal_hexDigitChar _ hmod, ih _ hdiv]
        _ = n := Nat.mod_add_div n 16

theorem toHex_inj (m n : Nat) (hm : 0 < m) (hn : 0 < n)
    (h : toHex m = toHex n) : m = n := by
  have hm0 : ¬m = 0 := by omega
  have hn0 : ¬n = 0 := by omega
  rw [toHex, toHex, if_neg hm0, if_neg hn0] at h
  have hdata : (toHexCore m m).reverse = (toHexCore n n).reverse := by
    injection h
  have hcore : toHexCore m m = toHexCore n n := by
    simpa using congrArg List.reverse hdata
  have hval := congrArg ofHexCore hcore
  rw [ofHexCore_toHexCore m m le_rfl, ofHexCore_toHexCore n n le_rfl] at hval
  exact hval

theorem aliasName_inj (m n : Nat) (hm : 0 < m) (hn : 0 < n)
    (hne : m ≠ n) : aliasName m ≠ aliasName n := by
  intro h
  apply hne
  apply toHex_inj m n hm hn
  have hd := congrArg String.data h
  rw [aliasName, aliasName, String.data_append, String.data_append] at hd
  exact String.ext (List.append_cancel_left hd)

mutual

theorem fromClause_mono (n : Node) (c c2 : Nat) (s : String)
    (h : Node.fromClause n c = .ok (s, c2)) : c ≤ c2 := by
  cases n with
  | base cn f hd rs =>
    simp only [Node.fromClause] at h
    simp at h
    omega
  | join a b l rs =>
    simp only [Node.fromClause] at h
    split at h
    next e heq => exact absurd h (by simp)
    next fa c1 heq =>
      split at h
      next e heq2 => exact absurd h (by simp)
      next fb cb heq2 =>
        simp at h
        have m1 := fromClause_mono a c c1 fa heq
        have m2 := fromClause_mono b c1 cb fb heq2
        omega
  | proj a ats rn rs =>
    simp only [Node.fromClause] at h
    exact fromClause_mono a c c2 s h
  | subquery a rs =>
    simp only [Node.fromClause] at h
    split at h
    next e heq => exact absurd h (by simp)
    next sm cm heq =>
      simp at h
      have := makeSelect_mono a none c cm sm heq
      omega
termination_by (sizeOf n, 0)

theorem whereClause_mono (n : Node) (c c2 : Nat) (s : String)
    (h : Node.whereClause n c = .ok (s, c2)) : c ≤ c2 := by
  cases n with
  | base cn f hd rs =>
    simp only [Node.whereClause] at h
    split at h
    next hrs => simp at h; omega
    next hrs => exact whereBody_mono _ rs c c2 s h
  | join a b l rs =>
    simp only [Node.whereClause] at h
    split at h
    next hrs => simp at h; omega
    next hrs => exact whereBody_mono _ rs c c2 s h
  | proj a ats rn rs =>
    simp only [Node.whereClause] at h
    split at h
    next hrs => simp at h; omega
    next hrs => exact whereBody_mono _ rs c c2 s h
  | subquery a rs =>
    simp only [Node.whereClause] at h
    split at h
    next hrs => simp at h; omega
    next hrs => exact whereBody_mono _ rs c c2 s h
termination_by (sizeOf n, 1)

theorem whereBody_mono (h0 : Heading) (rs : List Restriction) (c c2 : Nat)
    (s : String) (h : whereBody h0 rs c = .ok (s, c2)) : c ≤ c2 := by
  simp only [whereBody] at h
  split at h
  next e heq => exact absurd h (by simp)
  next cs c1 heq =>
    simp at h
    have := compileList_mono h0 rs c c1 cs heq
    omega
termination_by (sizeOf rs, 2)

theorem compileList_mono (h0 : Heading) (rs : List Restriction) (c c2 : Nat)
    (ss : List String) (h : compileList h0 rs c = .ok (ss, c2)) : c ≤ c2 := by
  cases rs with
  | nil =>
    simp only [compileList] at h
    simp at h
    omega
  | cons r rest =>
    simp only [compileList] at h
    split at h
    next e heq => exact absurd h (by simp)
    next s1 c1 heq =>
      split at h
      next e heq2 => exact absurd h (by simp)
      next ss2 cb heq2 =>
        simp at h
        have m1 := compileOne_mono h0 r c c1 s1 heq
        have m2 := compileList_mono h0 rest c1 cb ss2 heq2
        omega
termination_by (sizeOf rs, 0)

theorem compileOne_mono (h0 : Heading) (r : Restriction) (c c2 : Nat)
    (s : String) (h : compileOne h0 r c = .ok (s, c2)) : c ≤ c2 := by
  cases r with
  | dict kvs => simp only [compileOne] at h; simp at h; omega
  | record kvs => simp only [compileOne] at h; simp at h; omega
  | ndarr qs => simp only [compileOne] at h; simp at h; omega
  | pylist l =>
    simp only [compileOne] at h
    split at h
    next e heq => exact absurd h (by simp)
    next cs heq => simp at h; omega
  | rel m =>
    simp only [compileOne] at h
    split at h
    next e heq => exact absurd h (by simp)
    next fm c1 heq =>
      split at h
      next e heq2 => exact absurd h (by simp)
      next wm cb heq2 =>
        simp at h
        have m1 := fromClause_mono m c c1 fm heq
        have m2 := whereClause_mono m c1 cb wm heq2
        omega
  | neg x =>
    cases x with
    | dict kvs => simp only [compileOne] at h; simp at h; omega
    | record kvs => simp only [compileOne] at h; simp at h; omega
    | ndarr qs => simp only [compileOne] at h; simp at h; omega
    | pylist l =>
      simp only [compileOne] at h
      split at h
      next e heq => exact absurd h (by simp)
      next cs heq => simp at h; omega
    | rel m =>
      simp only [compileOne] at h
      split at h
      next e heq => exact absurd h (by simp)
      next fm c1 heq =>
        split at h
        next e heq2 => exact absurd h (by simp)
        next wm cb heq2 =>
          simp at h
          have m1 := fromClause_mono m c c1 fm heq
          have m2 := whereClause_mono m c1 cb wm heq2
          omega
    | neg y => simp only [compileOne] at h; simp at h
termination_by (sizeOf r, 0)

theorem makeSelect_mono (n : Node) (spec : Option String) (c c2 : Nat)
    (s : String) (h : Node.makeSelect n spec c = .ok (s, c2)) : c ≤ c2 := by
  simp only [Node.makeSelect] at h
  split at h
  next e heq => exact absurd h (by simp)
  next f c1 heq =>
    split at h
    next e heq2 => exact absurd h (by simp)
    next w cb heq2 =>
      simp at h
      have m1 := fromClause_mono n c c1 f heq
      have m2 := whereClause_mono n c1 cb w heq2
      omega
termination_by (sizeOf n, 2)

end

/-- C8: every evaluation of the FROM clause of a Subquery node mints its
alias from the shared counter after the inner statement is rendered, so
the resulting counter is strictly above the entry counter and the alias
text embeds the new counter value; the counter never moves downward
during any FROM clause evaluation; and two Subquery FROM clause
evaluations threaded one after the other inside one statement compilation
always mint distinct alias strings. -/
theorem C8_subquery_alias_distinct :
    (∀ (a : Node) (rs : List Restriction) (c c2 : Nat) (s : String),
      Node.fromClause (.subquery a rs) c = .ok (s, c2) →
      c < c2 ∧ ∃ inner, s = "(" ++ inner ++ ") as `" ++ aliasName c2 ++ "`") ∧
    (∀ (n : Node) (c c2 : Nat) (s : String),
      Node.fromClause n c = .ok (s, c2) → c ≤ c2) ∧
    (∀ (a b : Node) (ra rb : List Restriction) (c c1 c2 : Nat) (s1 s2 : String),
      Node.fromClause (.subquery a ra) c = .ok (s1, c1) →
      Node.fromClause (.subquery b rb) c1 = .ok (s2, c2) →
      aliasName c1 ≠ aliasName c2) := by
  have hmint : ∀ (a : Node) (rs : List Restriction) (c c2 : Nat) (s : String),
      Node.fromClause (.subquery a rs) c = .ok (s, c2) →
      c < c2 ∧ ∃ inner, s = "(" ++ inner ++ ") as `" ++ aliasName c2 ++ "`" := by
    intro a rs c c2 s h
    simp only [Node.fromClause] at h
    split at h
    next e heq => exact absurd h (by simp)
    next sm cm heq =>
      have hms := makeSelect_mono a none c cm sm heq
      simp at h
      obtain ⟨hs, hc⟩ := h
      subst hc
      exact ⟨by omega, sm, hs.symm⟩
  refine ⟨hmint, fun n c c2 s h => fromClause_mono n c c2 s h, ?_⟩
  intro a b ra rb c c1 c2 s1 s2 h1 h2
  have m1 := (hmint a ra c c1 s1 h1).1
  have m2 := (hmint b rb c1 c2 s2 h2).1
  exact aliasName_inj c1 c2 (by omega) (by omega) (by omega)

/-- C8 witness: two successive Subquery FROM clause evaluations over relA
starting at counter zero mint the aliases of counters one and two, and
those alias strings differ. -/
theorem C8_witness : aliasName 1 ≠ aliasName 2 := by
  have h1 : Node.fromClause (.subquery relA []) 0 =
      .ok ("(SELECT `id`,`v` FROM `db`.`a`) as `_s1`", 1) := by
    simp [Node.fromClause, Node.makeSelect, Node.whereClause, Node.heading,
      relA, hA, aliasName, toHex, toHexCore, hexDigitChar]
  have h2 : Node.fromClause (.subquery relA []) 1 =
      .ok ("(SELECT `id`,`v` FROM `db`.`a`) as `_s2`", 2) := by
    simp [Node.fromClause, Node.makeSelect, Node.whereClause, Node.heading,
      relA, hA, aliasName, toHex, toHexCore, hexDigitChar]
  exact C8_subquery_alias_distinct.2.2 relA relA [] [] 0 1 2 _ _ h1 h2

end DJ
